import Mathlib

/-!
Verification of the multi-tier TTL cache manager
(`app/core/cache_manager.py`): data model, key derivation, the
`CacheManager` operations (`get`, `set`, `delete`, `clear`,
`get_stats`, `cleanup_expired`) and the `cached` memoizing wrapper.

Python values are modelled by the inductive `PyVal`; time is an
explicit integer parameter standing for `time.time()`; the Redis
client is modelled as a record of response functions (each of which
may raise, modelled by `Except Unit`), and every remote command a
CacheManager operation issues is recorded in an explicit trace.
-/

namespace CacheSys

/-- Model of a Python value as stored in the cache: `None`, booleans,
integers, strings, lists and dicts (dict keys are themselves values,
as in Python).  `time.time()` floats never enter the cache as values
in this module, so no float constructor is needed. -/
inductive PyVal where
  | pnone : PyVal
  | pbool : Bool → PyVal
  | pint : Int → PyVal
  | pstr : String → PyVal
  | plist : List PyVal → PyVal
  | pdict : List (PyVal × PyVal) → PyVal

/-! ### MD5 (model of `hashlib.md5(...).hexdigest()`)

32-bit words are `Nat`s kept below `2^32` by explicit reduction. -/

def w32 : Nat := 4294967296

def add32 (a b : Nat) : Nat := (a + b) % w32

def not32 (x : Nat) : Nat := Nat.xor (x % w32) (w32 - 1)

def rotl32 (x s : Nat) : Nat :=
  (((x % w32) <<< s) % w32) + ((x % w32) >>> (32 - s))

/-- The 64 MD5 sine-derived constants. -/
def md5K : List Nat :=
  [0xd76aa478, 0xe8c7b756, 0x242070db, 0xc1bdceee,
   0xf57c0faf, 0x4787c62a, 0xa8304613, 0xfd469501,
   0x698098d8, 0x8b44f7af, 0xffff5bb1, 0x895cd7be,
   0x6b901122, 0xfd987193, 0xa679438e, 0x49b40821,
   0xf61e2562, 0xc040b340, 0x265e5a51, 0xe9b6c7aa,
   0xd62f105d, 0x02441453, 0xd8a1e681, 0xe7d3fbc8,
   0x21e1cde6, 0xc33707d6, 0xf4d50d87, 0x455a14ed,
   0xa9e3e905, 0xfcefa3f8, 0x676f02d9, 0x8d2a4c8a,
   0xfffa3942, 0x8771f681, 0x6d9d6122, 0xfde5380c,
   0xa4beea44, 0x4bdecfa9, 0xf6bb4b60, 0xbebfbc70,
   0x289b7ec6, 0xeaa127fa, 0xd4ef3085, 0x04881d05,
   0xd9d4d039, 0xe6db99e5, 0x1fa27cf8, 0xc4ac5665,
   0xf4292244, 0x432aff97, 0xab9423a7, 0xfc93a039,
   0x655b59c3, 0x8f0ccc92, 0xffeff47d, 0x85845dd1,
   0x6fa87e4f, 0xfe2ce6e0, 0xa3014314, 0x4e0811a1,
   0xf7537e82, 0xbd3af235, 0x2ad7d2bb, 0xeb86d391]

/-- The per-round left-rotation amounts. -/
def md5S : List Nat :=
  [7, 12, 17, 22, 7, 12, 17, 22, 7, 12, 17, 22, 7, 12, 17, 22,
   5, 9, 14, 20, 5, 9, 14, 20, 5, 9, 14, 20, 5, 9, 14, 20,
   4, 11, 16, 23, 4, 11, 16, 23, 4, 11, 16, 23, 4, 11, 16, 23,
   6, 10, 15, 21, 6, 10, 15, 21, 6, 10, 15, 21, 6, 10, 15, 21]

def md5F (i b c d : Nat) : Nat :=
  if i < 16 then Nat.lor (Nat.land b c) (Nat.land (not32 b) d)
  else if i < 32 then Nat.lor (Nat.land d b) (Nat.land (not32 d) c)
  else if i < 48 then Nat.xor (Nat.xor b c) d
  else Nat.xor c (Nat.lor b (not32 d))

def md5G (i : Nat) : Nat :=
  if i < 16 then i
  else if i < 32 then (5 * i + 1) % 16
  else if i < 48 then (3 * i + 5) % 16
  else (7 * i) % 16

def md5Round (M : List Nat) (st : Nat × Nat × Nat × Nat) (i : Nat) :
    Nat × Nat × Nat × Nat :=
  let (a, b, c, d) := st
  let f := add32 (add32 (add32 (md5F i b c d) a) (md5K.getD i 0))
    (M.getD (md5G i) 0)
  (d, add32 b (rotl32 f (md5S.getD i 0)), b, c)

def md5Block (st : Nat × Nat × Nat × Nat) (M : List Nat) :
    Nat × Nat × Nat × Nat :=
  let r := (List.range 64).foldl (md5Round M) st
  (add32 st.1 r.1, add32 st.2.1 r.2.1, add32 st.2.2.1 r.2.2.1,
   add32 st.2.2.2 r.2.2.2)

/-- Assemble little-endian 32-bit words from a byte list (whose length
is a multiple of 4 after padding). -/
def bytesToWords : List Nat → List Nat
  | b0 :: b1 :: b2 :: b3 :: rest =>
      (b0 + (b1 <<< 8) + (b2 <<< 16) + (b3 <<< 24)) :: bytesToWords rest
  | _ => []

/-- Fold `md5Block` over successive 16-word blocks; the fuel argument
(any bound on the number of blocks) keeps the recursion structural. -/
def md5Blocks : Nat → Nat × Nat × Nat × Nat → List Nat → Nat × Nat × Nat × Nat
  | 0, st, _ => st
  | _ + 1, st, [] => st
  | fuel + 1, st, w :: ws =>
      md5Blocks fuel (md5Block st (w :: ws.take 15)) (ws.drop 15)

/-- MD5 padding: `0x80`, zeros to 56 mod 64, 8-byte little-endian bit length. -/
def md5Pad (msg : List Nat) : List Nat :=
  let len := msg.length
  let padZeros := (119 - len % 64) % 64
  msg ++ [0x80] ++ List.replicate padZeros 0 ++
    ((List.range 8).map fun i => ((8 * len) >>> (8 * i)) % 256)

def wordLEBytes (x : Nat) : List Nat :=
  [x % 256, (x >>> 8) % 256, (x >>> 16) % 256, (x >>> 24) % 256]

def md5Bytes (msg : List Nat) : List Nat :=
  let ws := bytesToWords (md5Pad msg)
  let st := md5Blocks ws.length (0x67452301, 0xefcdab89, 0x98badcfe, 0x10325476) ws
  wordLEBytes st.1 ++ wordLEBytes st.2.1 ++ wordLEBytes st.2.2.1 ++
    wordLEBytes st.2.2.2

def hexDigitChar (n : Nat) : Char :=
  if n < 10 then Char.ofNat (48 + n) else Char.ofNat (87 + n)

def byteToHex (b : Nat) : List Char :=
  [hexDigitChar (b / 16), hexDigitChar (b % 16)]

/-- The sixteen lowercase hexadecimal digits. -/
def hexChars : List Char :=
  "0123456789abcdef".data

/-- UTF-8 encoding of a character, as `Nat` bytes (model of `str.encode()`). -/
def utf8EncodeCharNat (c : Char) : List Nat :=
  let n := c.toNat
  if n < 0x80 then [n]
  else if n < 0x800 then [0xC0 + n / 64, 0x80 + n % 64]
  else if n < 0x10000 then
    [0xE0 + n / 4096, 0x80 + (n / 64) % 64, 0x80 + n % 64]
  else
    [0xF0 + n / 262144, 0x80 + (n / 4096) % 64, 0x80 + (n / 64) % 64,
     0x80 + n % 64]

def strBytes (s : String) : List Nat :=
  (s.data.map utf8EncodeCharNat).flatten

/-- `hashlib.md5(s.encode()).hexdigest()`. -/
def md5Hex (s : String) : String :=
  String.mk (((md5Bytes (strBytes s)).map byteToHex).flatten)

/-! ### Key derivation (`CacheManager._generate_cache_key`)

Positional arguments and keyword values enter the key as their Python
`str()` images, so they are modelled directly as strings. -/

/-- Python sorts `kwargs.items()` as pairs: first by key and, for equal
keys (impossible in a dict, but part of tuple ordering), by value. -/
def pairLeB (a b : String × String) : Bool :=
  a.1 < b.1 || (a.1 = b.1 && a.2 ≤ b.2)

/-- Python string slicing `s[:n]` (first `n` code points). -/
def strTake (s : String) (n : Nat) : String :=
  String.mk (s.data.take n)

/-- The `key_str` of `_generate_cache_key`:
`":".join([prefix] + [str(a) for a in args] + [f"k=v" for sorted kwargs])`. -/
def joinedKeyStr (pre : String) (args : List String)
    (kwargs : List (String × String)) : String :=
  String.intercalate ":" (pre :: (args ++
    (kwargs.mergeSort pairLeB).map (fun kv => kv.1 ++ "=" ++ kv.2)))

/-- `CacheManager._generate_cache_key(prefix, *args, **kwargs)`
(source lines 41–46):
`md5(key_str).hexdigest()[:16] + "_" + key_str[:50]`. -/
def generate_cache_key (pre : String) (args : List String)
    (kwargs : List (String × String)) : String :=
  strTake (md5Hex (joinedKeyStr pre args kwargs)) 16 ++ "_" ++
    strTake (joinedKeyStr pre args kwargs) 50

/-! ### JSON serialization (model of `json.dumps(value, default=str,
ensure_ascii=False)` and `json.loads`)

`jsonDumps` fails (returns `none`, modelling a raised
`TypeError`/`ValueError`) exactly when a dict key is not a coercible
primitive — with `default=str` every non-dict-key value serializes.
Control-character escapes are omitted from the quoting model; no claim
depends on the exact escape table.  The parser takes structural fuel
bounded by the input length, which cannot run out. -/

def jsonQuote (s : String) : String :=
  "\"" ++ String.mk (s.data.flatMap fun c =>
    if c = '"' then ['\\', '"']
    else if c = '\\' then ['\\', '\\'] else [c]) ++ "\""

/-- JSON object keys: `str` keys are used directly; `int`/`bool`/`None`
keys are coerced to strings; any other key type makes `json.dumps`
raise `TypeError` (keys must be primitives). -/
def jsonKey : PyVal → Option String
  | .pstr s => some (jsonQuote s)
  | .pint n => some (jsonQuote (toString n))
  | .pbool b => some (jsonQuote (if b then "true" else "false"))
  | .pnone => some (jsonQuote "null")
  | _ => none

mutual

/-- `json.dumps(value, default=str, ensure_ascii=False)`, returning
`none` where Python raises. -/
def jsonDumps : PyVal → Option String
  | .pnone => some "null"
  | .pbool b => some (if b then "true" else "false")
  | .pint n => some (toString n)
  | .pstr s => some (jsonQuote s)
  | .plist xs => do
      pure ("[" ++ String.intercalate ", " (← jsonDumpsList xs) ++ "]")
  | .pdict kvs => do
      pure ("\x7b" ++ String.intercalate ", " (← jsonDumpsPairs kvs) ++ "\x7d")

def jsonDumpsList : List PyVal → Option (List String)
  | [] => some []
  | x :: xs => do pure ((← jsonDumps x) :: (← jsonDumpsList xs))

def jsonDumpsPairs : List (PyVal × PyVal) → Option (List String)
  | [] => some []
  | (k, v) :: kvs => do
      pure (((← jsonKey k) ++ ": " ++ (← jsonDumps v)) :: (← jsonDumpsPairs kvs))

end

def skipWs : List Char → List Char
  | c :: cs => if c = ' ' || c = '\t' || c = '\n' || c = '\r'
      then skipWs cs else c :: cs
  | [] => []

def unescChar (c : Char) : Char :=
  if c = 'n' then '\n' else if c = 't' then '\t' else c

def parseStrChars : Nat → List Char → Option (List Char × List Char)
  | 0, _ => none
  | _ + 1, [] => none
  | fuel + 1, c :: cs =>
      if c = '"' then some ([], cs)
      else if c = '\\' then
        match cs with
        | d :: cs' => do
            let (s, rest) ← parseStrChars fuel cs'
            pure (unescChar d :: s, rest)
        | [] => none
      else do
        let (s, rest) ← parseStrChars fuel cs
        pure (c :: s, rest)

mutual

def parseVal : Nat → List Char → Option (PyVal × List Char)
  | 0, _ => none
  | _ + 1, [] => none
  | fuel + 1, c :: cs =>
      if c = 'n' then
        if ['u', 'l', 'l'].isPrefixOf cs then some (.pnone, cs.drop 3)
        else none
      else if c = 't' then
        if ['r', 'u', 'e'].isPrefixOf cs then some (.pbool true, cs.drop 3)
        else none
      else if c = 'f' then
        if ['a', 'l', 's', 'e'].isPrefixOf cs then
          some (.pbool false, cs.drop 4)
        else none
      else if c = '"' then do
        let (s, rest) ← parseStrChars fuel cs
        pure (.pstr (String.mk s), rest)
      else if c = '[' then
        match skipWs cs with
        | ']' :: rest => some (.plist [], rest)
        | cs' => do
            let (xs, rest) ← parseArrayItems fuel cs'
            pure (.plist xs, rest)
      else if c = '\x7b' then
        match skipWs cs with
        | '\x7d' :: rest => some (.pdict [], rest)
        | cs' => do
            let (kvs, rest) ← parseObjItems fuel cs'
            pure (.pdict kvs, rest)
      else if c = '-' then do
        let (ds, rest) := (skipWs cs).span (·.isDigit)
        if ds.isEmpty then none
        else
          pure (.pint (-(ds.foldl (fun n d => 10 * n + (d.toNat - 48)) 0 : Nat)),
            rest)
      else if c.isDigit then
        let (ds, rest) := (c :: cs).span (·.isDigit)
        some (.pint (ds.foldl (fun n d => 10 * n + (d.toNat - 48)) 0 : Nat), rest)
      else none

def parseArrayItems : Nat → List Char → Option (List PyVal × List Char)
  | 0, _ => none
  | fuel + 1, cs => do
      let (v, rest) ← parseVal fuel (skipWs cs)
      match skipWs rest with
      | ',' :: rest' => do
          let (vs, rest'') ← parseArrayItems fuel rest'
          pure (v :: vs, rest'')
      | ']' :: rest' => pure ([v], rest')
      | _ => none

def parseObjItems : Nat → List Char → Option (List (PyVal × PyVal) × List Char)
  | 0, _ => none
  | fuel + 1, cs => do
      let (k, rest) ← parseVal fuel (skipWs cs)
      match skipWs rest with
      | ':' :: rest' => do
          let (v, rest'') ← parseVal fuel (skipWs rest')
          match skipWs rest'' with
          | ',' :: rest3 => do
              let (kvs, rest4) ← parseObjItems fuel rest3
              pure ((k, v) :: kvs, rest4)
          | '\x7d' :: rest3 => pure ([(k, v)], rest3)
          | _ => none
      | _ => none

end

/-- `json.loads(s)`: parse or raise (`Except.error`). -/
def jsonLoads (s : String) : Except Unit PyVal :=
  match parseVal (4 * s.length + 8) (skipWs s.data) with
  | some (v, rest) => if skipWs rest = [] then .ok v else .error ()
  | none => .error ()

/-! ### The cache data model -/

abbrev Key := String

/-- A memory-cache entry: `{'value': ..., 'expiry': time.time() + ...}`.
Time is modelled by integers. -/
structure Entry where
  value : PyVal
  expiry : Int

/-- The `cache_stats` counter dict initialised in `__init__`. -/
structure Stats where
  hits : Nat
  misses : Nat
  memory_hits : Nat
  redis_hits : Nat
deriving DecidableEq, Repr

/-- A remote command issued to the Redis client, recorded so that
theorems can speak about which remote operations an API call performs. -/
inductive RemoteCmd where
  | getCmd (key : Key)
  | setexCmd (key : Key) (ttl : Int) (payload : String)
  | delCmd (key : Key)
  | scanCmd (pat : String)
  | flushCmd
deriving DecidableEq, Repr

/-- Modelled from the spec: the RemoteTierClient collaborator interface
(`get`/`setex`/`delete`/`scan_iter`/`flushdb`), an external networked
store whose operations are each independently fallible; a raised
exception is `Except.error ()`.  Only the response behaviour is
modelled — the source under verification never looks at a remote
success value except `get`'s payload. -/
structure RedisClient where
  rget : Key → Except Unit (Option String)
  rsetex : Key → Int → String → Except Unit Unit
  rdelete : Key → Except Unit Unit
  rscanIter : String → Except Unit (List Key)
  rflushdb : Except Unit Unit

/-- The `CacheManager` object state: optional Redis client, the
`memory_cache` dict (an association list with the keys pairwise
distinct, as in a Python dict) and the statistics counters. -/
structure CacheManager where
  redis_client : Option RedisClient
  memory_cache : List (Key × Entry)
  cache_stats : Stats

/-- `CacheManager.__init__(redis_client)`. -/
def CacheManager.init (rc : Option RedisClient) : CacheManager :=
  { redis_client := rc, memory_cache := [], cache_stats := ⟨0, 0, 0, 0⟩ }

/-- `self.ttl_config.get(cache_type, 300)`: the TTL table built in
`__init__` with the `.get` default of 300 for unknown categories. -/
def ttl_config_get (cache_type : String) : Int :=
  if cache_type = "stock_data" then 300
  else if cache_type = "technical_indicators" then 600
  else if cache_type = "analysis_result" then 900
  else if cache_type = "market_scan" then 1800
  else if cache_type = "news" then 600
  else if cache_type = "fundamental" then 3600
  else if cache_type = "capital_flow" then 900
  else if cache_type = "quick" then 60
  else if cache_type = "long" then 7200
  else 300

/-- The nine configured category names. -/
def ttlCategories : List String :=
  ["stock_data", "technical_indicators", "analysis_result", "market_scan",
   "news", "fundamental", "capital_flow", "quick", "long"]

/-- The TTL `set` works with (source lines 83–84): the `ttl` argument
when given, else the category default. -/
def effectiveTTL (cache_type : String) (ttlArg : Option Int) : Int :=
  match ttlArg with
  | some t => t
  | none => ttl_config_get cache_type

/-! Python-dict operations on the association list. -/

/-- `self.memory_cache[key]` guarded by `key in self.memory_cache`. -/
def assocFind (l : List (Key × Entry)) (k : Key) : Option Entry :=
  match l.find? (fun kv => kv.1 = k) with
  | some kv => some kv.2
  | none => none

/-- `self.memory_cache[key] = e`: replace in place if present, else append. -/
def assocInsert (l : List (Key × Entry)) (k : Key) (e : Entry) :
    List (Key × Entry) :=
  if (l.find? (fun kv => kv.1 = k)).isSome then
    l.map (fun kv => if kv.1 = k then (k, e) else kv)
  else l ++ [(k, e)]

/-- `del self.memory_cache[key]` (keys are unique in a dict). -/
def assocErase (l : List (Key × Entry)) (k : Key) : List (Key × Entry) :=
  l.filter (fun kv => ¬ kv.1 = k)

/-- Python substring test `pat in s`. -/
def strContains (s pat : String) : Bool :=
  decide (pat.data <:+: s.data)

/-! ### CacheManager operations -/

def Stats.hitMem (s : Stats) : Stats :=
  { s with hits := s.hits + 1, memory_hits := s.memory_hits + 1 }

def Stats.hitRedis (s : Stats) : Stats :=
  { s with hits := s.hits + 1, redis_hits := s.redis_hits + 1 }

def Stats.miss (s : Stats) : Stats :=
  { s with misses := s.misses + 1 }

/-- The Redis fallback half of `get` (source lines 61–80): consult the
remote tier when configured (`if cached:` makes `None` and the empty
string misses), backfill the memory cache on a hit with
`min(ttl, 300)`, count the miss otherwise.  Any raise from `get` or
`json.loads` is caught and falls through to the miss path. -/
def CacheManager.getRedisPhase (m : CacheManager) (key : Key)
    (cache_type : String) (now : Int) : PyVal × CacheManager × List RemoteCmd :=
  match m.redis_client with
  | none => (.pnone, { m with cache_stats := m.cache_stats.miss }, [])
  | some rc =>
      let missRes : PyVal × CacheManager × List RemoteCmd :=
        (.pnone, { m with cache_stats := m.cache_stats.miss }, [.getCmd key])
      match rc.rget key with
      | .error _ => missRes
      | .ok none => missRes
      | .ok (some cached) =>
          if cached = "" then missRes
          else
            match jsonLoads cached with
            | .error _ => missRes
            | .ok value =>
                let ttl := ttl_config_get cache_type
                (value,
                 { m with
                     memory_cache := assocInsert m.memory_cache key
                       ⟨value, now + min ttl 300⟩,
                     cache_stats := m.cache_stats.hitRedis },
                 [.getCmd key])

/-- `CacheManager.get(key, cache_type)` (source lines 48–80): memory
tier first (hit if `expiry > time.time()`, lazy eviction otherwise),
then the Redis phase.  Returns the Python return value (`pnone` both
for a miss and for a stored `None`), the updated manager, and the
trace of remote commands issued. -/
def CacheManager.get (m : CacheManager) (key : Key) (cache_type : String)
    (now : Int) : PyVal × CacheManager × List RemoteCmd :=
  match assocFind m.memory_cache key with
  | some cached_item =>
      if cached_item.expiry > now then
        (cached_item.value,
         { m with cache_stats := m.cache_stats.hitMem }, [])
      else
        CacheManager.getRedisPhase
          { m with memory_cache := assocErase m.memory_cache key }
          key cache_type now
  | none => CacheManager.getRedisPhase m key cache_type now

/-- `CacheManager.set(key, value, cache_type, ttl)` (source lines
82–107): effective TTL is the argument or the category default; the
memory cache is always written with expiry `now + min(ttl, 300)`; the
remote write is attempted only when a client is configured and
`json.dumps` succeeds, and its `setex` uses the full TTL (a raise from
`setex` is caught). -/
def CacheManager.set (m : CacheManager) (key : Key) (value : PyVal)
    (cache_type : String) (ttlArg : Option Int) (now : Int) :
    CacheManager × List RemoteCmd :=
  let ttl := effectiveTTL cache_type ttlArg
  let m' := { m with
    memory_cache := assocInsert m.memory_cache key ⟨value, now + min ttl 300⟩ }
  match m.redis_client with
  | none => (m', [])
  | some _ =>
      match jsonDumps value with
      | none => (m', [])
      | some payload => (m', [.setexCmd key ttl payload])

/-- `CacheManager.delete(key)` (source lines 109–117): unconditional
local removal; remote delete issued when configured, raises caught. -/
def CacheManager.delete (m : CacheManager) (key : Key) :
    CacheManager × List RemoteCmd :=
  let m' := { m with memory_cache := assocErase m.memory_cache key }
  match m.redis_client with
  | none => (m', [])
  | some _ => (m', [.delCmd key])

/-- The `for key in scan_iter: delete(key)` loop body: a raise from a
`delete` aborts the loop (and is caught by the surrounding `except`),
so commands after the first failing delete are never issued. -/
def issueDeletes (rc : RedisClient) : List Key → List RemoteCmd
  | [] => []
  | k :: ks =>
      match rc.rdelete k with
      | .error _ => [.delCmd k]
      | .ok _ => .delCmd k :: issueDeletes rc ks

/-- The no-pattern branch of `clear` (source lines 131–137): drop the
whole memory cache and issue `flushdb` when a client is configured. -/
def CacheManager.clearAll (m : CacheManager) : CacheManager × List RemoteCmd :=
  let m' := { m with memory_cache := [] }
  match m.redis_client with
  | none => (m', [])
  | some _ => (m', [.flushCmd])

/-- `CacheManager.clear(pattern)` (source lines 119–139).  Python's
`if pattern:` sends a `None` or empty-string pattern to the
flush-everything branch; a truthy pattern removes the local keys
containing it as a substring and then scans the remote tier with
`*pattern*`, deleting each reported key (raises caught, the local
removal already done). -/
def CacheManager.clear (m : CacheManager) (pattern : Option String) :
    CacheManager × List RemoteCmd :=
  match pattern with
  | some pat =>
      if pat = "" then CacheManager.clearAll m
      else
        let m' := { m with
          memory_cache := m.memory_cache.filter
            (fun kv => ¬ strContains kv.1 pat) }
        match m.redis_client with
        | none => (m', [])
        | some rc =>
            match rc.rscanIter ("*" ++ pat ++ "*") with
            | .error _ => (m', [.scanCmd ("*" ++ pat ++ "*")])
            | .ok keys =>
                (m', .scanCmd ("*" ++ pat ++ "*") :: issueDeletes rc keys)
  | none => CacheManager.clearAll m

/-- The snapshot returned by `get_stats` (source lines 141–148).  The
hit rate is kept as an exact rational (a percentage); Python formats
the same quantity as an `f"{rate:.2f}%"` float string. -/
structure StatsReport where
  hits : Nat
  misses : Nat
  memory_hits : Nat
  redis_hits : Nat
  hit_rate : ℚ
  memory_cache_size : Nat

/-- `CacheManager.get_stats()`: a pure read of the counters and the
current memory-cache size. -/
def CacheManager.get_stats (m : CacheManager) : StatsReport :=
  let total : Nat := m.cache_stats.hits + m.cache_stats.misses
  { hits := m.cache_stats.hits
    misses := m.cache_stats.misses
    memory_hits := m.cache_stats.memory_hits
    redis_hits := m.cache_stats.redis_hits
    hit_rate := if 0 < total then (m.cache_stats.hits : ℚ) / (total : ℚ) * 100 else 0
    memory_cache_size := m.memory_cache.length }

/-- `CacheManager.cleanup_expired()` (source lines 150–162): collect
the keys with `expiry <= current_time`, delete each, return the count. -/
def CacheManager.cleanup_expired (m : CacheManager) (now : Int) :
    Nat × CacheManager :=
  let expired_keys :=
    (m.memory_cache.filter (fun kv => kv.2.expiry ≤ now)).map (fun kv => kv.1)
  let mem := expired_keys.foldl (fun mc k => assocErase mc k) m.memory_cache
  (expired_keys.length, { m with memory_cache := mem })

/-! ### The `cached` decorator (memoizer) -/

/-- `x is not None` on a modelled Python value. -/
def PyVal.isNone : PyVal → Bool
  | .pnone => true
  | _ => false

/-- `prefix = key_prefix or f"{func.__module__}.{func.__name__}"`:
Python's `or` falls back on falsy values, so an absent or empty
`key_prefix` yields the qualified function name. -/
def resolvePre ( key_prefix : Option String) (funcQualName : String) : String :=
  match key_prefix with
  | some s => if s = "" then funcQualName else s
  | none => funcQualName

/-- One call of the wrapper produced by
`cached(cache_type, ttl, key_prefix)` around a bound method (source
lines 165–191).  `selfCM` is the owner's `cache_manager` attribute,
`none` modelling `not hasattr(self, 'cache_manager')`; `funcQualName`
is `f"{func.__module__}.{func.__name__}"`; `func` is the wrapped
function, modelled as a pure function of its (stringified) arguments.
Returns the call's result, the owner's cache manager afterwards, and
how often `func` was invoked (0 or 1) during this call. -/
def cachedCall (selfCM : Option CacheManager) (cache_type : String)
    (ttlArg : Option Int) ( key_prefix : Option String) (funcQualName : String)
    (func : List String → List (String × String) → PyVal)
    (args : List String) (kwargs : List (String × String)) (now : Int) :
    PyVal × Option CacheManager × Nat :=
  match selfCM with
  | none => (func args kwargs, none, 1)
  | some cm =>
      let cache_key :=
        generate_cache_key (resolvePre key_prefix funcQualName) args kwargs
      let (cached_value, cm1, _) := cm.get cache_key cache_type now
      if cached_value.isNone then
        let result := func args kwargs
        if result.isNone then (result, some cm1, 1)
        else
          let (cm2, _) := cm1.set cache_key result cache_type ttlArg now
          (result, some cm2, 1)
      else (cached_value, some cm1, 0)

/-! ### Operation sequences (for the statistics claim) -/

/-- One external API call against a `CacheManager`, with its own
timestamp where the source reads `time.time()`. -/
inductive Op where
  | opGet (key : Key) (cache_type : String) (now : Int)
  | opSet (key : Key) (value : PyVal) (cache_type : String)
      (ttlArg : Option Int) (now : Int)
  | opDelete (key : Key)
  | opClear (pattern : Option String)
  | opCleanup (now : Int)
  | opStats

/-- State transition of one operation.  `get_stats` (source lines
141–148) only reads, so `opStats` leaves the state unchanged. -/
def applyOp (m : CacheManager) : Op → CacheManager
  | .opGet k ct now => (m.get k ct now).2.1
  | .opSet k v ct t now => (m.set k v ct t now).1
  | .opDelete k => (m.delete k).1
  | .opClear p => (m.clear p).1
  | .opCleanup now => (m.cleanup_expired now).2
  | .opStats => m

def runOps (m : CacheManager) (ops : List Op) : CacheManager :=
  ops.foldl applyOp m

def Op.isGet : Op → Bool
  | .opGet .. => true
  | _ => false

/-- The number of `get` calls in a sequence of operations. -/
def countGets (ops : List Op) : Nat :=
  ops.countP Op.isGet

/-- The same manager with the remote tier unconfigured — the reference
behaviour for the graceful-degradation claim. -/
def CacheManager.localOnly (m : CacheManager) : CacheManager :=
  { m with redis_client := none }

/-! ### Concrete fixtures used by the witnesses -/

/-- An always-raising remote client: every operation fails. -/
def failingClient : RedisClient :=
  { rget := fun _ => .error (), rsetex := fun _ _ _ => .error (),
    rdelete := fun _ => .error (), rscanIter := fun _ => .error (),
    rflushdb := .error () }

/-- A remote client whose `get` always returns the payload `"5"` and
whose other operations succeed. -/
def happyClient : RedisClient :=
  { rget := fun _ => .ok (some "5"), rsetex := fun _ _ _ => .ok (),
    rdelete := fun _ => .ok (), rscanIter := fun _ => .ok [],
    rflushdb := .ok () }

def wEntry : Entry := Entry.mk (.pint 1) 10

/-- A one-entry local-only manager. -/
def wm1 : CacheManager :=
  { redis_client := none, memory_cache := [("k", wEntry)],
    cache_stats := ⟨0, 0, 0, 0⟩ }

/-- An empty manager with the happy remote client. -/
def wmR : CacheManager := CacheManager.init (some happyClient)

/-- A two-entry local-only manager (entries expiring at 10 and 11). -/
def wm2 : CacheManager :=
  { redis_client := none,
    memory_cache := [("a", Entry.mk (.pint 1) 10), ("b", Entry.mk (.pint 2) 11)],
    cache_stats := ⟨0, 0, 0, 0⟩ }

/-- A client whose scan reports two keys and whose deletes succeed. -/
def scanClient : RedisClient :=
  { rget := fun _ => .ok none, rsetex := fun _ _ _ => .ok (),
    rdelete := fun _ => .ok (), rscanIter := fun _ => .ok ["a1", "a2"],
    rflushdb := .ok () }

/-- A two-entry manager carrying the scanning remote client. -/
def wmS : CacheManager :=
  { redis_client := some scanClient,
    memory_cache := [("foo_1", Entry.mk (.pint 1) 10), ("bar", Entry.mk (.pint 2) 10)],
    cache_stats := ⟨0, 0, 0, 0⟩ }

/-- A `set` followed by a hitting `get` and a missing `get`. -/
def wOps : List Op :=
  [Op.opSet "k" (.pint 1) "quick" none 0,
   Op.opGet "k" "quick" 0,
   Op.opGet "x" "quick" 0]

/-- A wrapped function returning a non-null constant. -/
def wFunc : List String → List (String × String) → PyVal :=
  fun _ _ => .pint 42

/-- A wrapped function returning `None` on every call. -/
def wFuncNone : List String → List (String × String) → PyVal :=
  fun _ _ => .pnone

/-- An empty manager with the failing remote client. -/
def wmF : CacheManager := CacheManager.init (some failingClient)

/-! ### Helper lemmas -/

set_option maxRecDepth 100000 in
/-- RFC 1321 test vector, validating the MD5 model. -/
theorem md5Hex_empty_vector :
    md5Hex "" = "d41d8cd98f00b204e9800998ecf8427e" := by decide

set_option maxRecDepth 100000 in
/-- RFC 1321 test vector, validating the MD5 model. -/
theorem md5Hex_abc_vector :
    md5Hex "abc" = "900150983cd24fb0d6963f7d28e17f72" := by decide

theorem ttl_config_get_pos (ct : String) : 0 < ttl_config_get ct := by
  unfold ttl_config_get
  split_ifs <;> norm_num

theorem effectiveTTL_none (ct : String) :
    effectiveTTL ct none = ttl_config_get ct := rfl

theorem assocFind_assocInsert (l : List (Key × Entry)) (k : Key) (e : Entry) :
    assocFind (assocInsert l k e) k = some e := by
  unfold assocFind assocInsert
  induction l with
  | nil => simp
  | cons kv l ih =>
      by_cases h : kv.1 = k
      · simp [h]
      · rw [show (List.find? (fun kv => decide (kv.1 = k)) (kv :: l))
              = List.find? (fun kv => decide (kv.1 = k)) l from by simp [h]]
        by_cases hs : (List.find? (fun kv => decide (kv.1 = k)) l).isSome
        · rw [if_pos hs]
          rw [if_pos hs] at ih
          simpa [h] using ih
        · rw [if_neg hs]
          rw [if_neg hs] at ih
          simpa [h] using ih

/-- `set` always performs the same memory-cache write, whatever the
remote tier does. -/
theorem set_fst (m : CacheManager) (key : Key) (value : PyVal)
    (cache_type : String) (ttlArg : Option Int) (now : Int) :
    (m.set key value cache_type ttlArg now).1 =
      { m with memory_cache := assocInsert m.memory_cache key (Entry.mk value (now + min (effectiveTTL cache_type ttlArg) 300)) } := by
  unfold CacheManager.set
  cases m.redis_client with
  | none => rfl
  | some rc => cases jsonDumps value <;> rfl

/-- **C1.** For every key, value and category, `set(key, value, category)`
followed immediately (same clock reading, hence within the fresh entry's
TTL, every category default being positive) by `get(key, category)`
returns a value equal to the stored one. -/
theorem C1_set_then_get_roundtrip (m : CacheManager) (key : Key)
    (value : PyVal) (cache_type : String) (now : Int) :
    ((m.set key value cache_type none now).1.get key cache_type now).1
      = value := by
  have hmin : 0 < min (effectiveTTL cache_type none) 300 :=
    lt_min (ttl_config_get_pos cache_type) (by norm_num)
  rw [set_fst]
  unfold CacheManager.get
  simp [assocFind_assocInsert,
    show now < now + min (effectiveTTL cache_type none) 300 by omega]

/-- **C2.** The tier-fallback postcondition of `get(key, category)`:
(1) an unexpired local entry is a local hit — `hits` and `memory_hits`
are incremented, the stored value returned, the memory cache untouched
and no remote command issued; (2) an expired local entry is removed
(lazy eviction) and the call falls through to the Redis phase on the
erased state; (3) a remote hit (payload present, truthy,
deserializable) backfills the local tier with TTL
`min(category default TTL, 300)`, increments `hits` and `redis_hits`
and returns the value; (4)/(5) when neither tier yields a value — no
client configured, or the remote returns nothing — `misses` is
incremented and `None` (absence) is returned. -/
theorem C2_get_tier_fallback :
    (∀ (m : CacheManager) (key : Key) (ct : String) (now : Int) (e : Entry),
      assocFind m.memory_cache key = some e → e.expiry > now →
      m.get key ct now =
        (e.value, { m with cache_stats := m.cache_stats.hitMem }, [])) ∧
    (∀ (m : CacheManager) (key : Key) (ct : String) (now : Int) (e : Entry),
      assocFind m.memory_cache key = some e → ¬ e.expiry > now →
      m.get key ct now =
        CacheManager.getRedisPhase { m with memory_cache := assocErase m.memory_cache key } key ct now) ∧
    (∀ (m : CacheManager) (key : Key) (ct : String) (now : Int)
        (rc : RedisClient) (p : String) (v : PyVal),
      m.redis_client = some rc → assocFind m.memory_cache key = none →
      rc.rget key = .ok (some p) → p ≠ "" → jsonLoads p = .ok v →
      m.get key ct now =
        (v, { m with memory_cache := assocInsert m.memory_cache key (Entry.mk v (now + min (ttl_config_get ct) 300)), cache_stats := m.cache_stats.hitRedis }, [.getCmd key])) ∧
    (∀ (m : CacheManager) (key : Key) (ct : String) (now : Int),
      m.redis_client = none → assocFind m.memory_cache key = none →
      m.get key ct now =
        (.pnone, { m with cache_stats := m.cache_stats.miss }, [])) ∧
    (∀ (m : CacheManager) (key : Key) (ct : String) (now : Int)
        (rc : RedisClient),
      m.redis_client = some rc → assocFind m.memory_cache key = none →
      rc.rget key = .ok none →
      m.get key ct now =
        (.pnone, { m with cache_stats := m.cache_stats.miss }, [.getCmd key])) := by
  refine ⟨?_, ?_, ?_, ?_, ?_⟩
  · intro m key ct now e hf he
    unfold CacheManager.get
    rw [hf]
    simp [he]
  · intro m key ct now e hf he
    unfold CacheManager.get
    rw [hf]
    simp [he]
  · intro m key ct now rc p v hrc hf hget hp hload
    unfold CacheManager.get CacheManager.getRedisPhase
    rw [hf, hrc]
    simp [hget, hp, hload]
  · intro m key ct now hrc hf
    unfold CacheManager.get CacheManager.getRedisPhase
    rw [hf, hrc]
  · intro m key ct now rc hrc hf hget
    unfold CacheManager.get CacheManager.getRedisPhase
    rw [hf, hrc]
    simp [hget]

/-- Witness for C2: each branch of the fallback postcondition
evaluated at concrete inputs. -/
theorem C2_get_tier_fallback_witness :
    wm1.get "k" "quick" 5 =
      (.pint 1, { wm1 with cache_stats := wm1.cache_stats.hitMem }, []) ∧
    wm1.get "k" "quick" 10 =
      CacheManager.getRedisPhase { wm1 with memory_cache := assocErase wm1.memory_cache "k" } "k" "quick" 10 ∧
    wmR.get "x" "stock_data" 0 =
      (.pint 5, { wmR with memory_cache := assocInsert wmR.memory_cache "x" (Entry.mk (.pint 5) (0 + min (ttl_config_get "stock_data") 300)), cache_stats := wmR.cache_stats.hitRedis }, [.getCmd "x"]) ∧
    (CacheManager.init none).get "x" "quick" 0 =
      (.pnone, { CacheManager.init none with cache_stats := (CacheManager.init none).cache_stats.miss }, []) :=
  ⟨C2_get_tier_fallback.1 wm1 "k" "quick" 5 wEntry rfl (by norm_num [wEntry]),
   C2_get_tier_fallback.2.1 wm1 "k" "quick" 10 wEntry rfl (by norm_num [wEntry]),
   C2_get_tier_fallback.2.2.1 wmR "x" "stock_data" 0 happyClient "5" (.pint 5)
     rfl rfl rfl (by decide) rfl,
   C2_get_tier_fallback.2.2.2.1 (CacheManager.init none) "x" "quick" 0 rfl rfl⟩

/-- **C3.** `set(key, value, category, ttl)`: the effective TTL is the
`ttl` argument when given, else the category default, any category
outside the configured table falling back to 300 seconds; the local
entry is always written with expiry `now + min(effectiveTTL, 300)`,
whatever the remote tier does; and when a client is configured and the
value serializes, the remote write is a `setex` carrying the full
effective TTL. -/
theorem C3_set_ttl :
    (∀ (ct : String) (t : Int), effectiveTTL ct (some t) = t) ∧
    (∀ ct : String, ct ∉ ttlCategories → effectiveTTL ct none = 300) ∧
    (∀ (m : CacheManager) (key : Key) (v : PyVal) (ct : String)
        (ttlArg : Option Int) (now : Int),
      (m.set key v ct ttlArg now).1.memory_cache =
        assocInsert m.memory_cache key (Entry.mk v (now + min (effectiveTTL ct ttlArg) 300))) ∧
    (∀ (m : CacheManager) (key : Key) (v : PyVal) (ct : String)
        (ttlArg : Option Int) (now : Int) (rc : RedisClient) (p : String),
      m.redis_client = some rc → jsonDumps v = some p →
      (m.set key v ct ttlArg now).2 = [.setexCmd key (effectiveTTL ct ttlArg) p]) := by
  refine ⟨fun ct t => rfl, ?_, ?_, ?_⟩
  · intro ct h
    simp [ttlCategories] at h
    obtain ⟨h1, h2, h3, h4, h5, h6, h7, h8, h9⟩ := h
    simp [effectiveTTL, ttl_config_get, h1, h2, h3, h4, h5, h6, h7, h8, h9]
  · intro m key v ct ttlArg now
    rw [set_fst]
  · intro m key v ct ttlArg now rc p hrc hd
    simp [CacheManager.set, hrc, hd]

/-- Witness for C3: an unknown category falls back to 300, and a
remote `setex` carries the full effective TTL with the serialized
payload. -/
theorem C3_set_ttl_witness :
    effectiveTTL "unknown_cat" none = 300 ∧
    (wmR.set "k" (.pint 7) "quick" none 100).2 =
      [.setexCmd "k" (effectiveTTL "quick" none) "7"] :=
  ⟨C3_set_ttl.2.1 "unknown_cat" (by decide),
   C3_set_ttl.2.2.2 wmR "k" (.pint 7) "quick" none 100 happyClient "7" rfl rfl⟩

theorem getRedisPhase_none (m : CacheManager) (hrc : m.redis_client = none)
    (key : Key) (ct : String) (now : Int) :
    CacheManager.getRedisPhase m key ct now =
      (.pnone, { m with cache_stats := m.cache_stats.miss }, []) := by
  unfold CacheManager.getRedisPhase
  rw [hrc]

theorem getRedisPhase_failing (m : CacheManager) (rc : RedisClient)
    (hrc : m.redis_client = some rc) (hg : ∀ k, rc.rget k = .error ())
    (key : Key) (ct : String) (now : Int) :
    CacheManager.getRedisPhase m key ct now =
      (.pnone, { m with cache_stats := m.cache_stats.miss }, [.getCmd key]) := by
  unfold CacheManager.getRedisPhase
  rw [hrc]
  simp [hg key]

/-- **C4.** With a remote tier configured but every remote operation
(`get`, `setex`, `delete`) raising, no exception escapes (the model is
total by translation of the source's `try/except` blocks) and `get`,
`set` and `delete` behave exactly as with only the local tier: `get`
returns the same value with the same resulting memory cache and
statistics (degrading to a miss when the local tier has nothing);
`set`'s local write still stands — also when the value cannot be
serialized — and `delete` still removes the local entry. -/
theorem C4_remote_failure_degradation :
    ∀ (m : CacheManager) (rc : RedisClient),
      m.redis_client = some rc →
      (∀ k, rc.rget k = .error ()) →
      (∀ k t p, rc.rsetex k t p = .error ()) →
      (∀ k, rc.rdelete k = .error ()) →
      (∀ (key : Key) (ct : String) (now : Int),
        (m.get key ct now).1 = (m.localOnly.get key ct now).1 ∧
        (m.get key ct now).2.1.memory_cache
          = (m.localOnly.get key ct now).2.1.memory_cache ∧
        (m.get key ct now).2.1.cache_stats
          = (m.localOnly.get key ct now).2.1.cache_stats) ∧
      (∀ (key : Key) (v : PyVal) (ct : String) (ttlArg : Option Int) (now : Int),
        (m.set key v ct ttlArg now).1.memory_cache
          = (m.localOnly.set key v ct ttlArg now).1.memory_cache ∧
        assocFind (m.set key v ct ttlArg now).1.memory_cache key
          = some (Entry.mk v (now + min (effectiveTTL ct ttlArg) 300))) ∧
      (∀ key : Key,
        (m.delete key).1.memory_cache = (m.localOnly.delete key).1.memory_cache ∧
        (m.delete key).1.memory_cache = assocErase m.memory_cache key) := by
  intro m rc hrc hg hs hd
  refine ⟨?_, ?_, ?_⟩
  · intro key ct now
    unfold CacheManager.get CacheManager.getRedisPhase
    simp only [CacheManager.localOnly]
    cases hf : assocFind m.memory_cache key with
    | some e =>
        by_cases he : e.expiry > now
        · simp [he]
        · simp [he, hrc, hg key]
    | none => simp [hrc, hg key]
  · intro key v ct ttlArg now
    rw [set_fst, set_fst]
    exact ⟨rfl, assocFind_assocInsert ..⟩
  · intro key
    unfold CacheManager.delete
    simp [CacheManager.localOnly, hrc]

/-- Witness for C4: the failing-client manager compared with its
local-only counterpart at concrete inputs. -/
theorem C4_remote_failure_degradation_witness :
    ((wmF.get "k" "quick" 5).1 = (wmF.localOnly.get "k" "quick" 5).1 ∧
     (wmF.get "k" "quick" 5).2.1.memory_cache
       = (wmF.localOnly.get "k" "quick" 5).2.1.memory_cache ∧
     (wmF.get "k" "quick" 5).2.1.cache_stats
       = (wmF.localOnly.get "k" "quick" 5).2.1.cache_stats) ∧
    ((wmF.set "k" (.pint 1) "quick" none 5).1.memory_cache
       = (wmF.localOnly.set "k" (.pint 1) "quick" none 5).1.memory_cache ∧
     assocFind (wmF.set "k" (.pint 1) "quick" none 5).1.memory_cache "k"
       = some (Entry.mk (.pint 1) (5 + min (effectiveTTL "quick" none) 300))) ∧
    ((wmF.delete "k").1.memory_cache = (wmF.localOnly.delete "k").1.memory_cache ∧
     (wmF.delete "k").1.memory_cache = assocErase wmF.memory_cache "k") :=
  let h := C4_remote_failure_degradation wmF failingClient rfl
    (fun _ => rfl) (fun _ _ _ => rfl) (fun _ => rfl)
  ⟨h.1 "k" "quick" 5, h.2.1 "k" (.pint 1) "quick" none 5, h.2.2 "k"⟩

/-- Folding `del` over a list of keys filters out every pair whose key
occurs in the list. -/
theorem foldl_assocErase (ks : List Key) (l : List (Key × Entry)) :
    ks.foldl (fun mc k => assocErase mc k) l
      = l.filter (fun kv => decide (kv.1 ∉ ks)) := by
  induction ks generalizing l with
  | nil => simp
  | cons k ks ih =>
      rw [List.foldl_cons, ih]
      unfold assocErase
      rw [List.filter_filter]
      apply List.filter_congr
      intro kv _
      by_cases h1 : kv.1 = k <;> by_cases h2 : kv.1 ∈ ks <;> simp [h1, h2]

/-- **C5.** `cleanup_expired()` removes from the memory cache exactly
the entries whose expiry has passed (`expiry <= now`, entries being
logically absent from `now = expiry` on — the complement of the
boundary `expiry > now` at which `get` still hits), leaves every
unexpired entry unchanged (in place), touches neither the client nor
the counters, and returns the number of entries removed.  The
`Nodup` hypothesis is the Python-dict invariant that keys are unique. -/
theorem C5_cleanup_expired (m : CacheManager) (now : Int)
    (hnd : (m.memory_cache.map (fun kv => kv.1)).Nodup) :
    (m.cleanup_expired now).2.memory_cache
      = m.memory_cache.filter (fun kv => ¬ kv.2.expiry ≤ now) ∧
    (m.cleanup_expired now).1
      = (m.memory_cache.filter (fun kv => kv.2.expiry ≤ now)).length ∧
    (m.cleanup_expired now).2.redis_client = m.redis_client ∧
    (m.cleanup_expired now).2.cache_stats = m.cache_stats ∧
    (∀ (key : Key) (e : Entry) (ct : String), m.redis_client = none →
      assocFind m.memory_cache key = some e →
      ((m.get key ct now).2.1.cache_stats.hits = m.cache_stats.hits + 1
        ↔ e.expiry > now)) := by
  refine ⟨?_, ?_, rfl, rfl, ?_⟩
  · unfold CacheManager.cleanup_expired
    dsimp only
    rw [foldl_assocErase]
    apply List.filter_congr
    intro kv hkv
    by_cases hp : kv.2.expiry ≤ now
    · have hin : kv.1 ∈ (m.memory_cache.filter
          (fun kv => decide (kv.2.expiry ≤ now))).map (fun kv => kv.1) :=
        List.mem_map_of_mem _ (List.mem_filter.mpr ⟨hkv, by simpa using hp⟩)
      simp [hp, hin]
    · have hout : kv.1 ∉ (m.memory_cache.filter
          (fun kv => decide (kv.2.expiry ≤ now))).map (fun kv => kv.1) := by
        intro hmem
        obtain ⟨kv', hkv', hfst⟩ := List.mem_map.mp hmem
        have hkv'l := (List.mem_filter.mp hkv').1
        have hkv'p := (List.mem_filter.mp hkv').2
        have heq : kv' = kv := List.inj_on_of_nodup_map hnd hkv'l hkv hfst
        rw [heq] at hkv'p
        simp at hkv'p
        omega
      simp [hp, hout]
  · unfold CacheManager.cleanup_expired
    simp
  · intro key e ct hrc hf
    unfold CacheManager.get
    rw [hf]
    dsimp only
    by_cases he : e.expiry > now
    · simp [he, Stats.hitMem]
    · rw [if_neg he, getRedisPhase_none _ (by simpa using hrc)]
      simp [Stats.miss, he]

/-- Witness for C5: a two-entry cache at `now = 10` — the entry
expiring at 10 is removed and counted, the one expiring at 11
survives; `get` hits exactly the surviving entry. -/
theorem C5_cleanup_expired_witness :
    ((wm2.cleanup_expired 10).2.memory_cache
      = wm2.memory_cache.filter (fun kv => ¬ kv.2.expiry ≤ 10) ∧
     (wm2.cleanup_expired 10).1
      = (wm2.memory_cache.filter (fun kv => kv.2.expiry ≤ 10)).length ∧
     (wm2.cleanup_expired 10).2.redis_client = wm2.redis_client ∧
     (wm2.cleanup_expired 10).2.cache_stats = wm2.cache_stats ∧
     (∀ (key : Key) (e : Entry) (ct : String), wm2.redis_client = none →
      assocFind wm2.memory_cache key = some e →
      (((wm2.get key ct 10).2.1.cache_stats.hits = wm2.cache_stats.hits + 1)
        ↔ e.expiry > 10))) ∧
    (wm2.cleanup_expired 10).1 = 1 :=
  ⟨C5_cleanup_expired wm2 10 (by decide), rfl⟩

theorem issueDeletes_ok (rc : RedisClient) (ks : List Key)
    (h : ∀ k ∈ ks, rc.rdelete k = .ok ()) :
    issueDeletes rc ks = ks.map RemoteCmd.delCmd := by
  induction ks with
  | nil => rfl
  | cons k ks ih =>
      unfold issueDeletes
      rw [h k (by simp)]
      simp [ih (fun k hk => h k (by simp [hk]))]

/-- **C6.** `clear`: with a (truthy) pattern, exactly the local keys
containing the pattern as a substring are removed — keys without it
survive in place — and the remote side is a scan for `*pattern*`
followed by a delete of each reported key (the pattern is embedded
literally between the `*` wildcards, substring semantics for literal
patterns); without a pattern, all local entries are dropped and a full
remote flush is issued.  The local clearing result holds for every
client behaviour, so remote enumeration/deletion errors cannot prevent
it; the scan-failure case is stated explicitly. -/
theorem C6_clear :
    (∀ (m : CacheManager) (pat : String), pat ≠ "" →
      (m.clear (some pat)).1.memory_cache
        = m.memory_cache.filter (fun kv => ¬ strContains kv.1 pat)) ∧
    (∀ (m : CacheManager) (pat : String) (rc : RedisClient) (ks : List Key),
      pat ≠ "" → m.redis_client = some rc →
      rc.rscanIter ("*" ++ pat ++ "*") = .ok ks →
      (∀ k ∈ ks, rc.rdelete k = .ok ()) →
      (m.clear (some pat)).2
        = .scanCmd ("*" ++ pat ++ "*") :: ks.map RemoteCmd.delCmd) ∧
    (∀ (m : CacheManager) (pat : String) (rc : RedisClient),
      pat ≠ "" → m.redis_client = some rc →
      rc.rscanIter ("*" ++ pat ++ "*") = .error () →
      (m.clear (some pat)).2 = [.scanCmd ("*" ++ pat ++ "*")]) ∧
    (∀ m : CacheManager, (m.clear none).1.memory_cache = []) ∧
    (∀ (m : CacheManager) (rc : RedisClient), m.redis_client = some rc →
      (m.clear none).2 = [.flushCmd]) := by
  refine ⟨?_, ?_, ?_, ?_, ?_⟩
  · intro m pat hpat
    unfold CacheManager.clear
    dsimp only
    rw [if_neg hpat]
    cases hrc : m.redis_client with
    | none => rfl
    | some rc =>
        dsimp only
        cases hscan : rc.rscanIter ("*" ++ pat ++ "*") <;> rfl
  · intro m pat rc ks hpat hrc hscan hdel
    unfold CacheManager.clear
    dsimp only
    rw [if_neg hpat, hrc]
    dsimp only
    rw [hscan]
    simp [issueDeletes_ok rc ks hdel]
  · intro m pat rc hpat hrc hscan
    unfold CacheManager.clear
    dsimp only
    rw [if_neg hpat, hrc]
    dsimp only
    rw [hscan]
  · intro m
    unfold CacheManager.clear CacheManager.clearAll
    cases m.redis_client <;> rfl
  · intro m rc hrc
    unfold CacheManager.clear CacheManager.clearAll
    rw [hrc]

/-- Witness for C6: clearing pattern `"foo"` on a two-key manager
keeps only the non-matching key locally and issues
`scan "*foo*"` plus one delete per reported key; clearing with no
pattern empties the local tier and flushes the remote one. -/
theorem C6_clear_witness :
    (wmS.clear (some "foo")).1.memory_cache
      = wmS.memory_cache.filter (fun kv => ¬ strContains kv.1 "foo") ∧
    (wmS.clear (some "foo")).2
      = .scanCmd ("*" ++ "foo" ++ "*") :: ["a1", "a2"].map RemoteCmd.delCmd ∧
    (wmS.clear none).1.memory_cache = [] ∧
    (wmS.clear none).2 = [.flushCmd] ∧
    (wmS.clear (some "foo")).1.memory_cache = [("bar", Entry.mk (.pint 2) 10)] :=
  ⟨C6_clear.1 wmS "foo" (by decide),
   C6_clear.2.1 wmS "foo" scanClient ["a1", "a2"] (by decide) rfl rfl
     (fun k _ => rfl),
   C6_clear.2.2.2.1 wmS,
   C6_clear.2.2.2.2 wmS scanClient rfl,
   by rw [C6_clear.1 wmS "foo" (by decide)]; rfl⟩

/-! Order facts about the keyword-argument sort. -/

theorem pairLeB_trans (a b c : String × String) :
    pairLeB a b = true → pairLeB b c = true → pairLeB a c = true := by
  simp only [pairLeB, Bool.or_eq_true, Bool.and_eq_true, decide_eq_true_eq]
  rintro (h1 | ⟨h1, h1'⟩) (h2 | ⟨h2, h2'⟩)
  · exact Or.inl (lt_trans h1 h2)
  · exact Or.inl (h2 ▸ h1)
  · exact Or.inl (h1 ▸ h2)
  · exact Or.inr ⟨h1.trans h2, le_trans h1' h2'⟩

theorem pairLeB_total (a b : String × String) :
    (pairLeB a b || pairLeB b a) = true := by
  simp only [pairLeB, Bool.or_eq_true, Bool.and_eq_true, decide_eq_true_eq]
  rcases lt_trichotomy a.1 b.1 with h | h | h
  · exact Or.inl (Or.inl h)
  · rcases le_total a.2 b.2 with h2 | h2
    · exact Or.inl (Or.inr ⟨h, h2⟩)
    · exact Or.inr (Or.inr ⟨h.symm, h2⟩)
  · exact Or.inr (Or.inl h)

theorem pairLeB_antisymm (a b : String × String) :
    pairLeB a b = true → pairLeB b a = true → a = b := by
  simp only [pairLeB, Bool.or_eq_true, Bool.and_eq_true, decide_eq_true_eq]
  rintro (h1 | ⟨h1, h1'⟩) (h2 | ⟨h2, h2'⟩)
  · exact absurd h2 (lt_asymm h1)
  · exact absurd h1 (h2 ▸ lt_irrefl a.1)
  · exact absurd h2 (h1 ▸ lt_irrefl a.1)
  · exact Prod.ext_iff.mpr ⟨h1, le_antisymm h1' h2'⟩

/-- Sorting with the Python pair order is invariant under permutation
of the input, so keyword order cannot influence the derived key. -/
theorem mergeSort_pairLeB_perm {l₁ l₂ : List (String × String)}
    (h : l₁.Perm l₂) : l₁.mergeSort pairLeB = l₂.mergeSort pairLeB := by
  haveI : IsAntisymm (String × String) (fun a b => pairLeB a b = true) :=
    ⟨pairLeB_antisymm⟩
  exact List.eq_of_perm_of_sorted
    ((List.mergeSort_perm l₁ _).trans (h.trans (List.mergeSort_perm l₂ _).symm))
    (List.sorted_mergeSort pairLeB_trans pairLeB_total l₁)
    (List.sorted_mergeSort pairLeB_trans pairLeB_total l₂)

/-! Hexadecimal shape of the digest. -/

theorem hexDigitChar_mem (n : Nat) (h : n < 16) : hexDigitChar n ∈ hexChars := by
  interval_cases n <;> decide

theorem byteToHex_mem (b : Nat) (hb : b < 256) (c : Char)
    (hc : c ∈ byteToHex b) : c ∈ hexChars := by
  simp only [byteToHex, List.mem_cons, List.mem_singleton,
    List.not_mem_nil, or_false] at hc
  rcases hc with rfl | rfl
  · exact hexDigitChar_mem _ (by omega)
  · exact hexDigitChar_mem _ (Nat.mod_lt _ (by norm_num))

theorem wordLEBytes_lt (x : Nat) : ∀ b ∈ wordLEBytes x, b < 256 := by
  intro b hb
  simp only [wordLEBytes, List.mem_cons, List.mem_singleton,
    List.not_mem_nil, or_false] at hb
  rcases hb with rfl | rfl | rfl | rfl <;> exact Nat.mod_lt _ (by norm_num)

theorem md5Bytes_lt (msg : List Nat) : ∀ b ∈ md5Bytes msg, b < 256 := by
  intro b hb
  unfold md5Bytes at hb
  simp only [List.mem_append] at hb
  rcases hb with ((h | h) | h) | h <;> exact wordLEBytes_lt _ b h

theorem flatten_byteToHex_length (l : List Nat) :
    ((l.map byteToHex).flatten).length = 2 * l.length := by
  induction l with
  | nil => rfl
  | cons b l ih =>
      simp only [List.map_cons, List.flatten_cons, List.length_append, ih,
        byteToHex, List.length_cons, List.length_nil, List.length_map]
      omega

theorem md5Bytes_length (msg : List Nat) : (md5Bytes msg).length = 16 := by
  unfold md5Bytes
  simp [wordLEBytes]

theorem md5Hex_data_length (s : String) : (md5Hex s).data.length = 32 := by
  show (((md5Bytes (strBytes s)).map byteToHex).flatten).length = 32
  rw [flatten_byteToHex_length, md5Bytes_length]

theorem md5Hex_mem_hexChars (s : String) :
    ∀ c ∈ (md5Hex s).data, c ∈ hexChars := by
  intro c hc
  have hc' : c ∈ ((md5Bytes (strBytes s)).map byteToHex).flatten := hc
  rw [List.mem_flatten] at hc'
  obtain ⟨lc, hlc, hcin⟩ := hc'
  rw [List.mem_map] at hlc
  obtain ⟨b, hb, rfl⟩ := hlc
  exact byteToHex_mem b (md5Bytes_lt _ b hb) c hcin

unseal List.merge List.mergeSort in
set_option maxRecDepth 400000 in
/-- **C7.** Key derivation is a pure function of
`(prefix, positionalArgs, keywordArgs)`: permuting the keyword
arguments leaves the key unchanged (they are serialized sorted), while
positional order is significant (witnessed at concrete arguments); and
every key is a 16-hex-character digest of the `":"`-joined components,
then `"_"`, then the first 50 characters of the joined string. -/
theorem C7_key_derivation :
    (∀ (pre : String) (args : List String) (kw₁ kw₂ : List (String × String)),
      kw₁.Perm kw₂ →
      generate_cache_key pre args kw₁ = generate_cache_key pre args kw₂) ∧
    generate_cache_key "p" ["a", "b"] [] ≠ generate_cache_key "p" ["b", "a"] [] ∧
    (∀ (pre : String) (args : List String) (kw : List (String × String)),
      generate_cache_key pre args kw
        = strTake (md5Hex (joinedKeyStr pre args kw)) 16 ++ "_"
            ++ strTake (joinedKeyStr pre args kw) 50 ∧
      (strTake (md5Hex (joinedKeyStr pre args kw)) 16).data.length = 16 ∧
      ∀ c ∈ (strTake (md5Hex (joinedKeyStr pre args kw)) 16).data,
        c ∈ hexChars) := by
  refine ⟨?_, by decide, ?_⟩
  · intro pre args kw₁ kw₂ h
    have hj : joinedKeyStr pre args kw₁ = joinedKeyStr pre args kw₂ := by
      unfold joinedKeyStr
      rw [mergeSort_pairLeB_perm h]
    unfold generate_cache_key
    rw [hj]
  · intro pre args kw
    refine ⟨rfl, ?_, ?_⟩
    · show ((md5Hex (joinedKeyStr pre args kw)).data.take 16).length = 16
      rw [List.length_take, md5Hex_data_length]
      decide
    · intro c hc
      have hc' : c ∈ (md5Hex (joinedKeyStr pre args kw)).data :=
        List.take_subset _ _ hc
      exact md5Hex_mem_hexChars _ c hc'

/-- Witness for C7: swapping two keyword arguments leaves the derived
key unchanged. -/
theorem C7_key_derivation_witness :
    generate_cache_key "p" [] [("b", "2"), ("a", "1")]
      = generate_cache_key "p" [] [("a", "1"), ("b", "2")] :=
  C7_key_derivation.1 "p" [] [("b", "2"), ("a", "1")] [("a", "1"), ("b", "2")]
    (by decide)

/-! Statistics bookkeeping lemmas: every `get` increments exactly one
of `hits`/`misses`; no other operation touches them. -/

theorem getRedisPhase_stats_total (m : CacheManager) (k : Key) (ct : String)
    (now : Int) :
    (CacheManager.getRedisPhase m k ct now).2.1.cache_stats.hits
      + (CacheManager.getRedisPhase m k ct now).2.1.cache_stats.misses
      = m.cache_stats.hits + m.cache_stats.misses + 1 := by
  unfold CacheManager.getRedisPhase
  cases m.redis_client with
  | none => simp [Stats.miss]; omega
  | some rc =>
      dsimp only
      cases rc.rget k with
      | error u => simp [Stats.miss]; omega
      | ok o =>
          cases o with
          | none => simp [Stats.miss]; omega
          | some p =>
              by_cases hp : p = ""
              · simp [hp, Stats.miss]; omega
              · simp only [hp, if_false]
                cases jsonLoads p with
                | error u => simp [Stats.miss]; omega
                | ok v => simp [Stats.hitRedis]; omega

theorem get_stats_total (m : CacheManager) (k : Key) (ct : String) (now : Int) :
    (m.get k ct now).2.1.cache_stats.hits
      + (m.get k ct now).2.1.cache_stats.misses
      = m.cache_stats.hits + m.cache_stats.misses + 1 := by
  unfold CacheManager.get
  cases hf : assocFind m.memory_cache k with
  | some e =>
      by_cases he : e.expiry > now
      · simp [he, Stats.hitMem]; omega
      · simp only [he, if_false]
        exact getRedisPhase_stats_total _ k ct now
  | none => exact getRedisPhase_stats_total m k ct now

theorem set_stats (m : CacheManager) (k : Key) (v : PyVal) (ct : String)
    (t : Option Int) (now : Int) :
    (m.set k v ct t now).1.cache_stats = m.cache_stats := by
  rw [set_fst]

theorem delete_stats (m : CacheManager) (k : Key) :
    (m.delete k).1.cache_stats = m.cache_stats := by
  unfold CacheManager.delete
  cases m.redis_client <;> rfl

theorem clear_stats (m : CacheManager) (p : Option String) :
    (m.clear p).1.cache_stats = m.cache_stats := by
  unfold CacheManager.clear CacheManager.clearAll
  cases p with
  | none => cases m.redis_client <;> rfl
  | some pat =>
      dsimp only
      by_cases hp : pat = ""
      · rw [if_pos hp]
        cases m.redis_client <;> rfl
      · rw [if_neg hp]
        cases hrc : m.redis_client with
        | none => rfl
        | some rc =>
            dsimp only
            cases rc.rscanIter ("*" ++ pat ++ "*") <;> rfl

theorem runOps_total (m : CacheManager) (ops : List Op) :
    (runOps m ops).cache_stats.hits + (runOps m ops).cache_stats.misses
      = m.cache_stats.hits + m.cache_stats.misses + countGets ops := by
  induction ops generalizing m with
  | nil => simp [runOps, countGets]
  | cons o ops ih =>
      have hstep : (applyOp m o).cache_stats.hits
          + (applyOp m o).cache_stats.misses
          = m.cache_stats.hits + m.cache_stats.misses
            + (if Op.isGet o = true then 1 else 0) := by
        cases o with
        | opGet k ct now => simpa [applyOp, Op.isGet] using get_stats_total m k ct now
        | opSet k v ct t now => simp [applyOp, Op.isGet, set_stats]
        | opDelete k => simp [applyOp, Op.isGet, delete_stats]
        | opClear p => simp [applyOp, Op.isGet, clear_stats]
        | opCleanup now => simp [applyOp, Op.isGet, CacheManager.cleanup_expired]
        | opStats => simp [applyOp, Op.isGet]
      have hrun : runOps m (o :: ops) = runOps (applyOp m o) ops := rfl
      have hc : countGets (o :: ops)
          = countGets ops + (if Op.isGet o = true then 1 else 0) :=
        List.countP_cons _ _ _
      rw [hrun, ih (applyOp m o), hc]
      omega

/-- **C8.** After any operation sequence from a fresh manager, the
counters satisfy `hits + misses = number of get calls`; `get_stats`
is a pure snapshot (running it changes nothing) reporting the four
counters verbatim together with the current memory-cache size; and the
reported rate equals `hits/(hits+misses)`, as a percentage (`0` when
no `get` has happened) — Python renders the same quantity as a
two-decimal float string. -/
theorem C8_get_stats :
    (∀ (rc : Option RedisClient) (ops : List Op),
      (runOps (CacheManager.init rc) ops).cache_stats.hits
        + (runOps (CacheManager.init rc) ops).cache_stats.misses
        = countGets ops) ∧
    (∀ m : CacheManager,
      (m.get_stats).hits = m.cache_stats.hits ∧
      (m.get_stats).misses = m.cache_stats.misses ∧
      (m.get_stats).memory_hits = m.cache_stats.memory_hits ∧
      (m.get_stats).redis_hits = m.cache_stats.redis_hits ∧
      (m.get_stats).memory_cache_size = m.memory_cache.length ∧
      runOps m [Op.opStats] = m) ∧
    (∀ m : CacheManager, 0 < m.cache_stats.hits + m.cache_stats.misses →
      (m.get_stats).hit_rate
        = (m.cache_stats.hits : ℚ)
            / ((m.cache_stats.hits : ℚ) + (m.cache_stats.misses : ℚ)) * 100) ∧
    (∀ m : CacheManager, m.cache_stats.hits + m.cache_stats.misses = 0 →
      (m.get_stats).hit_rate = 0) := by
  refine ⟨?_, ?_, ?_, ?_⟩
  · intro rc ops
    have h := runOps_total (CacheManager.init rc) ops
    simpa [CacheManager.init] using h
  · intro m
    exact ⟨rfl, rfl, rfl, rfl, rfl, rfl⟩
  · intro m h
    unfold CacheManager.get_stats
    dsimp only
    rw [if_pos h]
    push_cast
    ring
  · intro m h
    unfold CacheManager.get_stats
    dsimp only
    rw [if_neg (by omega)]

/-- Witness for C8: one `set` and two `get`s (one hit, one miss) from
a fresh manager give `hits + misses = 2 = countGets` and a 50% rate. -/
theorem C8_get_stats_witness :
    ((runOps (CacheManager.init none) wOps).cache_stats.hits
      + (runOps (CacheManager.init none) wOps).cache_stats.misses
      = countGets wOps) ∧
    ((runOps (CacheManager.init none) wOps).get_stats).hit_rate
      = ((runOps (CacheManager.init none) wOps).cache_stats.hits : ℚ)
          / (((runOps (CacheManager.init none) wOps).cache_stats.hits : ℚ)
             + ((runOps (CacheManager.init none) wOps).cache_stats.misses : ℚ))
          * 100 ∧
    countGets wOps = 2 :=
  ⟨C8_get_stats.1 none wOps,
   C8_get_stats.2.2.1 (runOps (CacheManager.init none) wOps) (by decide),
   rfl⟩

/-! Helper lemmas for the memoizer claims. -/

theorem get_empty_none (cm : CacheManager) (key : Key) (ct : String)
    (now : Int) (hm : cm.memory_cache = []) (hr : cm.redis_client = none) :
    cm.get key ct now =
      (.pnone, { cm with cache_stats := cm.cache_stats.miss }, []) := by
  unfold CacheManager.get
  rw [show assocFind cm.memory_cache key = none from by rw [hm]; rfl]
  exact getRedisPhase_none cm hr key ct now

theorem get_local_hit (cm : CacheManager) (key : Key) (ct : String)
    (now : Int) (e : Entry) (hf : assocFind cm.memory_cache key = some e)
    (he : e.expiry > now) :
    cm.get key ct now =
      (e.value, { cm with cache_stats := cm.cache_stats.hitMem }, []) := by
  unfold CacheManager.get
  rw [hf]
  simp [he]

/-- Keys whose readable suffixes differ are distinct, whatever the
digests are, because the digest prefix has fixed length 16. -/
theorem generate_cache_key_ne (pre₁ pre₂ : String) (a₁ a₂ : List String)
    (kw₁ kw₂ : List (String × String))
    (h : strTake (joinedKeyStr pre₁ a₁ kw₁) 50
          ≠ strTake (joinedKeyStr pre₂ a₂ kw₂) 50) :
    generate_cache_key pre₁ a₁ kw₁ ≠ generate_cache_key pre₂ a₂ kw₂ := by
  intro hk
  apply h
  unfold generate_cache_key at hk
  have hd := congrArg String.data hk
  simp only [String.data_append] at hd
  have hlen : (strTake (md5Hex (joinedKeyStr pre₁ a₁ kw₁)) 16).data.length
      = (strTake (md5Hex (joinedKeyStr pre₂ a₂ kw₂)) 16).data.length := by
    show ((md5Hex (joinedKeyStr pre₁ a₁ kw₁)).data.take 16).length
      = ((md5Hex (joinedKeyStr pre₂ a₂ kw₂)).data.take 16).length
    rw [List.length_take, List.length_take, md5Hex_data_length,
      md5Hex_data_length]
  rw [List.append_assoc, List.append_assoc] at hd
  have ht := List.append_inj_right hd hlen
  have ht2 := List.append_inj_right ht rfl
  exact String.ext ht2

/-- **C9.** The memoizing wrapper `cached(...)`: (a) an owner without a
cache manager calls the function directly, with no caching; (b) from a
fresh local-only cache, two calls with identical arguments whose
result is non-null invoke the function exactly once overall (second
call within TTL) and both return that result; (c) argument sets whose
joined serializations differ within the first 50 characters produce
distinct cache keys, and a key absent from a local-only cache forces
an invocation; (d) a null result is never stored — the wrapper returns
the post-`get` cache state unchanged and the function runs on this and
every such call. -/
theorem C9_memoizer :
    (∀ (ct : String) (ttlArg : Option Int) (kp : Option String)
        (fqn : String) (func : List String → List (String × String) → PyVal)
        (args : List String) (kwargs : List (String × String)) (now : Int),
      cachedCall none ct ttlArg kp fqn func args kwargs now
        = (func args kwargs, none, 1)) ∧
    (∀ (cm : CacheManager) (ct : String) (ttlArg : Option Int)
        (kp : Option String) (fqn : String)
        (func : List String → List (String × String) → PyVal)
        (args : List String) (kwargs : List (String × String)) (now₁ now₂ : Int),
      cm.memory_cache = [] → cm.redis_client = none →
      (func args kwargs).isNone = false →
      now₂ < now₁ + min (effectiveTTL ct ttlArg) 300 →
      (cachedCall (some cm) ct ttlArg kp fqn func args kwargs now₁).1
          = func args kwargs ∧
      (cachedCall (some cm) ct ttlArg kp fqn func args kwargs now₁).2.2 = 1 ∧
      (cachedCall
        (cachedCall (some cm) ct ttlArg kp fqn func args kwargs now₁).2.1
        ct ttlArg kp fqn func args kwargs now₂).1 = func args kwargs ∧
      (cachedCall
        (cachedCall (some cm) ct ttlArg kp fqn func args kwargs now₁).2.1
        ct ttlArg kp fqn func args kwargs now₂).2.2 = 0) ∧
    (∀ (pre₁ pre₂ : String) (a₁ a₂ : List String)
        (kw₁ kw₂ : List (String × String)),
      strTake (joinedKeyStr pre₁ a₁ kw₁) 50
          ≠ strTake (joinedKeyStr pre₂ a₂ kw₂) 50 →
      generate_cache_key pre₁ a₁ kw₁ ≠ generate_cache_key pre₂ a₂ kw₂) ∧
    (∀ (cm : CacheManager) (ct : String) (ttlArg : Option Int)
        (kp : Option String) (fqn : String)
        (func : List String → List (String × String) → PyVal)
        (args : List String) (kwargs : List (String × String)) (now : Int),
      assocFind cm.memory_cache
          (generate_cache_key (resolvePre kp fqn) args kwargs) = none →
      cm.redis_client = none →
      (cachedCall (some cm) ct ttlArg kp fqn func args kwargs now).2.2 = 1) ∧
    (∀ (cm : CacheManager) (ct : String) (ttlArg : Option Int)
        (kp : Option String) (fqn : String)
        (func : List String → List (String × String) → PyVal)
        (args : List String) (kwargs : List (String × String)) (now : Int),
      func args kwargs = .pnone →
      (cm.get (generate_cache_key (resolvePre kp fqn) args kwargs)
          ct now).1.isNone = true →
      cachedCall (some cm) ct ttlArg kp fqn func args kwargs now
        = (.pnone,
           some (cm.get (generate_cache_key (resolvePre kp fqn) args kwargs)
             ct now).2.1,
           1)) := by
  refine ⟨fun _ _ _ _ _ _ _ _ => rfl, ?_, generate_cache_key_ne, ?_, ?_⟩
  · intro cm ct ttlArg kp fqn func args kwargs now₁ now₂ hm hr hnn hexp
    unfold cachedCall
    dsimp only
    rw [get_empty_none cm _ ct now₁ hm hr]
    dsimp only
    rw [if_pos (show PyVal.isNone .pnone = true from rfl),
      if_neg (show ¬ (func args kwargs).isNone = true from by simp [hnn])]
    refine ⟨rfl, rfl, ?_, ?_⟩
    all_goals
      dsimp only
      rw [get_local_hit _ _ ct now₂
        (Entry.mk (func args kwargs)
          (now₁ + min (effectiveTTL ct ttlArg) 300))
        (by rw [set_fst]; exact assocFind_assocInsert ..)
        (by exact hexp)]
      dsimp only
      rw [if_neg (show ¬ (func args kwargs).isNone = true from by simp [hnn])]
  · intro cm ct ttlArg kp fqn func args kwargs now hf hr
    unfold cachedCall
    dsimp only
    rw [show cm.get (generate_cache_key (resolvePre kp fqn) args kwargs) ct now
        = (.pnone, { cm with cache_stats := cm.cache_stats.miss }, []) from by
      unfold CacheManager.get
      rw [hf]
      exact getRedisPhase_none cm hr _ ct now]
    dsimp only
    rw [if_pos (show PyVal.isNone .pnone = true from rfl)]
    cases hfn : (func args kwargs).isNone
    · rfl
    · rfl
  · intro cm ct ttlArg kp fqn func args kwargs now hfn hcv
    unfold cachedCall
    dsimp only
    rw [show (cm.get (generate_cache_key (resolvePre kp fqn) args kwargs) ct now)
        = ((cm.get (generate_cache_key (resolvePre kp fqn) args kwargs) ct now).1,
           (cm.get (generate_cache_key (resolvePre kp fqn) args kwargs) ct now).2.1,
           (cm.get (generate_cache_key (resolvePre kp fqn) args kwargs) ct now).2.2)
      from rfl]
    dsimp only
    rw [if_pos hcv, hfn]
    rw [if_pos (show PyVal.isNone .pnone = true from rfl)]

unseal List.merge List.mergeSort in
set_option maxRecDepth 100000 in
/-- Witness for C9: a concrete wrapped function called twice (one
underlying invocation, both calls returning 42); two keyword sets
differing in one value give distinct keys; a missing key forces an
invocation; a `None`-returning function is not cached. -/
theorem C9_memoizer_witness :
    ((cachedCall (some (CacheManager.init none)) "quick" none none "m.f"
        wFunc ["x"] [] 0).1 = wFunc ["x"] [] ∧
     (cachedCall (some (CacheManager.init none)) "quick" none none "m.f"
        wFunc ["x"] [] 0).2.2 = 1 ∧
     (cachedCall (cachedCall (some (CacheManager.init none)) "quick" none none
        "m.f" wFunc ["x"] [] 0).2.1 "quick" none none "m.f"
        wFunc ["x"] [] 30).1 = wFunc ["x"] [] ∧
     (cachedCall (cachedCall (some (CacheManager.init none)) "quick" none none
        "m.f" wFunc ["x"] [] 0).2.1 "quick" none none "m.f"
        wFunc ["x"] [] 30).2.2 = 0) ∧
    generate_cache_key "p" [] [("a", "1")] ≠ generate_cache_key "p" [] [("a", "2")] ∧
    (cachedCall (some (CacheManager.init none)) "quick" none none "m.f"
        wFunc ["x"] [] 0).2.2 = 1 ∧
    cachedCall (some (CacheManager.init none)) "quick" none none "m.f"
        wFuncNone ["x"] [] 0
      = (.pnone,
         some ((CacheManager.init none).get
           (generate_cache_key (resolvePre none "m.f") ["x"] []) "quick" 0).2.1,
         1) :=
  ⟨C9_memoizer.2.1 (CacheManager.init none) "quick" none none "m.f" wFunc
     ["x"] [] 0 30 rfl rfl rfl (by decide),
   C9_memoizer.2.2.1 "p" "p" [] [] [("a", "1")] [("a", "2")] (by decide),
   C9_memoizer.2.2.2.1 (CacheManager.init none) "quick" none none "m.f" wFunc
     ["x"] [] 0 rfl rfl,
   C9_memoizer.2.2.2.2 (CacheManager.init none) "quick" none none "m.f"
     wFuncNone ["x"] [] 0 rfl rfl⟩

/-- **C10.** Storing `None` as a value: a within-TTL `get` after
`set(key, None, category)` counts a hit (`hits` and `memory_hits` are
incremented) yet returns `None` — by return value alone this is
indistinguishable from a miss, whose return is also `None` (third
conjunct); consequently the memoizer, whose generated key holds a
cached `None`, takes the miss path and invokes the wrapped function on
every such call. -/
theorem C10_cached_none :
    (∀ (cm : CacheManager) (key : Key) (ct : String) (now now₂ : Int),
      now₂ < now + min (effectiveTTL ct none) 300 →
      (cm.set key .pnone ct none now).1.get key ct now₂
        = (.pnone, { (cm.set key .pnone ct none now).1 with cache_stats := (cm.set key .pnone ct none now).1.cache_stats.hitMem }, [])) ∧
    (∀ (cm : CacheManager) (ct : String) (ttlArg : Option Int)
        (kp : Option String) (fqn : String)
        (func : List String → List (String × String) → PyVal)
        (args : List String) (kwargs : List (String × String)) (now now₂ : Int),
      now₂ < now + min (effectiveTTL ct none) 300 →
      (cachedCall
        (some ((cm.set (generate_cache_key (resolvePre kp fqn) args kwargs)
          .pnone ct none now).1))
        ct ttlArg kp fqn func args kwargs now₂).2.2 = 1) ∧
    (∀ (key : Key) (ct : String) (now : Int),
      ((CacheManager.init none).get key ct now).1 = .pnone) := by
  refine ⟨?_, ?_, ?_⟩
  · intro cm key ct now now₂ h
    exact get_local_hit _ key ct now₂
      (Entry.mk .pnone (now + min (effectiveTTL ct none) 300))
      (by rw [set_fst]; exact assocFind_assocInsert ..) (by exact h)
  · intro cm ct ttlArg kp fqn func args kwargs now now₂ h
    unfold cachedCall
    dsimp only
    rw [get_local_hit _ _ ct now₂
      (Entry.mk .pnone (now + min (effectiveTTL ct none) 300))
      (by rw [set_fst]; exact assocFind_assocInsert ..) (by exact h)]
    dsimp only
    rw [if_pos (show PyVal.isNone .pnone = true from rfl)]
    cases hfn : (func args kwargs).isNone
    · rfl
    · rfl
  · intro key ct now
    rw [get_empty_none (CacheManager.init none) key ct now rfl rfl]

/-- Witness for C10: storing `None` then reading it back at a concrete
key and clock: hit counters bump, the result is `None`, and the
memoizer still invokes the function. -/
theorem C10_cached_none_witness :
    ((CacheManager.init none).set "k" .pnone "quick" none 0).1.get "k" "quick" 30
      = (.pnone, { ((CacheManager.init none).set "k" .pnone "quick" none 0).1 with cache_stats := ((CacheManager.init none).set "k" .pnone "quick" none 0).1.cache_stats.hitMem }, []) ∧
    (cachedCall
      (some (((CacheManager.init none).set
        (generate_cache_key (resolvePre none "m.f") ["x"] [])
        .pnone "quick" none 0).1))
      "quick" none none "m.f" wFunc ["x"] [] 30).2.2 = 1 :=
  ⟨C10_cached_none.1 (CacheManager.init none) "k" "quick" 0 30 (by decide),
   C10_cached_none.2.1 (CacheManager.init none) "quick" none none "m.f" wFunc
     ["x"] [] 0 30 (by decide)⟩

end CacheSys
